import Mathlib

/-!
Verification of the DAS mock server (`das_mock/server.py`).

The development shallowly embeds the data model and the operations of the
server: the qualifier evaluator `_row_matches_quals`, the streaming table
executor `MockTable.execute` (modelled as a pure function from a query, a
table bound and a cancellation schedule to the list of emitted batches),
the `ExecuteTable` relay loop, and the registration service
(`Register` / `Unregister` / `get_das_or_error`) over an association-list
registry.

Machine integers of the protocol are modelled as `Int` (qualifier
literals, row ids compared against them) and `Nat` (row ordinals, limits);
the mock never approaches 64-bit overflow.  The gRPC cancellation signal
is modelled as an optional boolean schedule indexed by the poll number
(`context.is_active()` is called once per loop iteration, in order), and
`context = None` is `Option.none`.
-/

/-- `values_pb2.Value`: the protocol's tagged value union.  Only the
`int` and `string` arms are produced by the server; `other` stands for
every remaining arm of the union (bool, double, ...), which the
qualifier evaluator does not recognize. -/
inductive Value where
  | int (v : Int)
  | string (v : String)
  | other
deriving DecidableEq

/-- `make_int_value` (server.py:30). -/
def make_int_value (x : Int) : Value := Value.int x

/-- `make_string_value` (server.py:33). -/
def make_string_value (s : String) : Value := Value.string s

/-- `tables_pb2.Column`: a named cell of a row. -/
structure Column where
  name : String
  data : Value
deriving DecidableEq

/-- `tables_pb2.Row`: an ordered list of columns. -/
structure Row where
  columns : List Column
deriving DecidableEq

/-- `operators_pb2` comparison operators.  `OTHER` stands for every
operator the `elif` chain of `_row_matches_quals` does not handle
(LIKE, PLUS, ...). -/
inductive Operator where
  | EQUALS
  | NOT_EQUALS
  | GREATER_THAN
  | GREATER_THAN_OR_EQUAL
  | LESS_THAN
  | LESS_THAN_OR_EQUAL
  | OTHER
deriving DecidableEq

/-- `quals_pb2.SimpleQual`: operator plus literal. -/
structure SimpleQual where
  operator : Operator
  value : Value
deriving DecidableEq

/-- `quals_pb2.Qual`: a named qualifier; `simple_qual = none` models a
qual whose `HasField("simple_qual")` is false (another qual shape). -/
structure Qual where
  name : String
  simple_qual : Option SimpleQual
deriving DecidableEq

/-- `query_pb2.Query`: optional limit, requested columns, qualifiers.
`limit = none` models `HasField("limit") = False`. -/
structure Query where
  limit : Option Nat
  columns : List String
  quals : List Qual
deriving DecidableEq

/-- One qualifier's verdict inside the loop of
`MockTable._row_matches_quals` (server.py:179-202): `false` iff the
qualifier causes `return False`.  Unrecognized names, qual shapes,
value types and operators fall through the `if`/`elif` chain and do
not exclude the row. -/
def qual_test (row_id : Int) (q : Qual) : Bool :=
  if q.name = "id" then
    match q.simple_qual with
    | some sq =>
      match sq.value with
      | Value.int target_val =>
        match sq.operator with
        | Operator.EQUALS => !(decide (row_id ≠ target_val))
        | Operator.NOT_EQUALS => !(decide (row_id = target_val))
        | Operator.GREATER_THAN => !(decide (row_id ≤ target_val))
        | Operator.GREATER_THAN_OR_EQUAL => !(decide (row_id < target_val))
        | Operator.LESS_THAN => !(decide (row_id ≥ target_val))
        | Operator.LESS_THAN_OR_EQUAL => !(decide (row_id > target_val))
        | Operator.OTHER => true
      | _ => true
    | none => true
  else true

/-- `MockTable._row_matches_quals` (server.py:173-203): the loop returns
`False` at the first failing qualifier, `True` if none fails. -/
def row_matches_quals (row_id : Int) : List Qual → Bool
  | [] => true
  | q :: qs => if qual_test row_id q then row_matches_quals row_id qs else false

/-- A qualifier the evaluator actually compares: id-column, simple qual,
integer literal. -/
def qual_recognized (q : Qual) : Bool :=
  if q.name = "id" then
    match q.simple_qual with
    | some sq => (match sq.value with | Value.int _ => true | _ => false)
    | none => false
  else false

/-- An id-column simple qualifier with an integer literal. -/
def idQual (op : Operator) (v : Int) : Qual :=
  { name := "id", simple_qual := some { operator := op, value := Value.int v } }

theorem row_matches_quals_eq_all (row_id : Int) (qs : List Qual) :
    row_matches_quals row_id qs = qs.all (qual_test row_id) := by
  induction qs with
  | nil => rfl
  | cons q qs ih =>
    simp only [row_matches_quals, List.all_cons, ih]
    by_cases h : qual_test row_id q <;> simp [h]

theorem qual_test_of_unrecognized (row_id : Int) (q : Qual)
    (h : qual_recognized q = false) : qual_test row_id q = true := by
  unfold qual_test
  by_cases hn : q.name = "id"
  · unfold qual_recognized at h
    rw [if_pos hn] at h
    rw [if_pos hn]
    match hq : q.simple_qual with
    | none => rfl
    | some sq =>
      simp only [hq] at h ⊢
      match hv : sq.value with
      | Value.int t => simp [hv] at h
      | Value.string s => simp [hv]
      | Value.other => simp [hv]
  · simp [hn]

theorem row_matches_quals_filter (row_id : Int) (qs : List Qual) :
    row_matches_quals row_id qs =
      row_matches_quals row_id (qs.filter qual_recognized) := by
  induction qs with
  | nil => rfl
  | cons q qs ih =>
    by_cases h : qual_recognized q
    · simp only [List.filter_cons_of_pos h, row_matches_quals, ih]
    · have hq : qual_test row_id q = true :=
        qual_test_of_unrecognized row_id q (by simpa using h)
      simp only [List.filter_cons_of_neg (by simpa using h),
        row_matches_quals, hq, if_true, ih]

/-- C3: a row of ordinal `r` passes one id-column qualifier `(op, v)`
exactly when `op(r, v)` holds, for each of the six comparison
operators; a pair of qualifiers passes exactly when each passes alone
(logical AND), independently of the order of evaluation. -/
theorem claim_C3 (r v : Int) (q1 q2 : Qual) :
    row_matches_quals r [idQual Operator.EQUALS v] = decide (r = v) ∧
    row_matches_quals r [idQual Operator.NOT_EQUALS v] = decide (r ≠ v) ∧
    row_matches_quals r [idQual Operator.GREATER_THAN v] = decide (r > v) ∧
    row_matches_quals r [idQual Operator.GREATER_THAN_OR_EQUAL v] = decide (r ≥ v) ∧
    row_matches_quals r [idQual Operator.LESS_THAN v] = decide (r < v) ∧
    row_matches_quals r [idQual Operator.LESS_THAN_OR_EQUAL v] = decide (r ≤ v) ∧
    row_matches_quals r [q1, q2] =
      (row_matches_quals r [q1] && row_matches_quals r [q2]) ∧
    row_matches_quals r [q1, q2] = row_matches_quals r [q2, q1] := by
  refine ⟨?_, ?_, ?_, ?_, ?_, ?_, ?_, ?_⟩
  · simp [row_matches_quals, qual_test, idQual]
  · simp [row_matches_quals, qual_test, idQual]
  · simp only [row_matches_quals_eq_all, List.all_cons, List.all_nil,
      Bool.and_true, qual_test, idQual]
    by_cases h : r ≤ v <;> simp [h] <;> omega
  · simp only [row_matches_quals_eq_all, List.all_cons, List.all_nil,
      Bool.and_true, qual_test, idQual]
    by_cases h : r < v <;> simp [h] <;> omega
  · simp only [row_matches_quals_eq_all, List.all_cons, List.all_nil,
      Bool.and_true, qual_test, idQual]
    by_cases h : r < v <;> simp [h] <;> omega
  · simp only [row_matches_quals_eq_all, List.all_cons, List.all_nil,
      Bool.and_true, qual_test, idQual]
    by_cases h : r ≤ v <;> simp [h] <;> omega
  · simp [row_matches_quals_eq_all]
  · simp [row_matches_quals_eq_all, Bool.and_comm]

/-- C7: qualifiers the evaluator does not recognize (wrong column name,
non-simple qual shape, non-integer literal) are vacuously true — the
match result of any qualifier set equals the match result of its
recognized qualifiers alone, and an unrecognized qualifier never
excludes a row. -/
theorem claim_C7 (r : Int) (qs : List Qual) (q : Qual)
    (h : qual_recognized q = false) :
    row_matches_quals r qs = row_matches_quals r (qs.filter qual_recognized) ∧
    qual_test r q = true ∧
    row_matches_quals r (q :: qs) = row_matches_quals r qs := by
  refine ⟨row_matches_quals_filter r qs, qual_test_of_unrecognized r q h, ?_⟩
  simp [row_matches_quals, qual_test_of_unrecognized r q h]

theorem claim_C7_witness :
    qual_recognized { name := "price", simple_qual := some { operator := Operator.EQUALS, value := Value.int 3 } } = false ∧
    (row_matches_quals 2 [{ name := "price", simple_qual := some { operator := Operator.EQUALS, value := Value.int 3 } }, idQual Operator.EQUALS 2] =
      row_matches_quals 2 ([{ name := "price", simple_qual := some { operator := Operator.EQUALS, value := Value.int 3 } }, idQual Operator.EQUALS 2].filter qual_recognized) ∧
     qual_test 2 { name := "price", simple_qual := some { operator := Operator.EQUALS, value := Value.int 3 } } = true ∧
     row_matches_quals 2 ({ name := "price", simple_qual := some { operator := Operator.EQUALS, value := Value.int 3 } } :: [{ name := "price", simple_qual := some { operator := Operator.EQUALS, value := Value.int 3 } }, idQual Operator.EQUALS 2]) =
       row_matches_quals 2 [{ name := "price", simple_qual := some { operator := Operator.EQUALS, value := Value.int 3 } }, idQual Operator.EQUALS 2]) :=
  ⟨by decide,
   claim_C7 2 [{ name := "price", simple_qual := some { operator := Operator.EQUALS, value := Value.int 3 } }, idQual Operator.EQUALS 2]
     { name := "price", simple_qual := some { operator := Operator.EQUALS, value := Value.int 3 } } (by decide)⟩

/-!
## Registration service

`active_dases` (server.py:239) is a Python dict from string id to
`MockDAS`; it is modelled as an association list with unique keys (the
only insertion point, `Register`, inserts a key only after failing to
find it).  `context.abort` raises, so the aborting handlers are
modelled with `Except`.
-/

/-- The table fields fixed by `MockTable.__init__` (server.py:46). -/
structure MockTableCfg where
  nrows : Nat
  table_name : String
deriving DecidableEq

/-- `MockDAS` (server.py:245-280): id, options, and the two tables its
constructor builds. -/
structure MockDAS where
  das_id : String
  options : List (String × String)
  small_table : MockTableCfg
  large_table : MockTableCfg
deriving DecidableEq

/-- `MockDAS.__init__` (server.py:253-263): stores id and options and
creates the two fixed tables; it never raises. -/
def mkMockDAS (das_id : String) (options : List (String × String)) : MockDAS :=
  { das_id := das_id, options := options,
    small_table := ⟨10, "small_table"⟩,
    large_table := ⟨100000000, "large_table"⟩ }

abbrev Registry := List (String × MockDAS)

/-- Dict membership/indexing: first (and only) binding of a key. -/
def dict_lookup (reg : Registry) (k : String) : Option MockDAS :=
  match reg with
  | [] => none
  | p :: rest => if p.1 = k then some p.2 else dict_lookup rest k

/-- `dict.pop`: remove the binding of a key. -/
def dict_remove (reg : Registry) (k : String) : Registry :=
  match reg with
  | [] => []
  | p :: rest => if p.1 = k then dict_remove rest k else p :: dict_remove rest k

/-- gRPC status codes used by the server's aborting handlers. -/
inductive StatusCode where
  | NOT_FOUND
  | INVALID_ARGUMENT
  | UNIMPLEMENTED
deriving DecidableEq

/-- A `context.abort(code, message)` outcome. -/
structure GrpcError where
  code : StatusCode
  message : String
deriving DecidableEq

/-- `get_das_or_error` (server.py:286-290): aborts with NOT_FOUND when
the id is not registered. -/
def get_das_or_error (reg : Registry) (das_key : String) : Except GrpcError MockDAS :=
  match dict_lookup reg das_key with
  | none => Except.error ⟨StatusCode.NOT_FOUND, "DAS not found: " ++ das_key⟩
  | some d => Except.ok d

/-- The fields of `RegisterRequest` the handler reads: `dtype` is
`request.definition.type`, `options` is `request.definition.options`,
`id` is the requested id (`none` when `HasField("id")` is false). -/
structure RegisterRequest where
  dtype : String
  options : List (String × String)
  id : Option String
deriving DecidableEq

/-- `RegisterResponse`: either an in-band error string or an assigned id. -/
inductive RegisterResponse where
  | error (msg : String)
  | ok (id : String)
deriving DecidableEq

/-- `RegistrationServiceServicer.Register` (server.py:314-356).
`freshId` stands for the value `str(uuid.uuid4())` would produce when a
new id is generated.  Returns the response and the updated registry. -/
def Register (reg : Registry) (request : RegisterRequest) (freshId : String) :
    RegisterResponse × Registry :=
  if request.dtype ≠ "mock" then
    (RegisterResponse.error ("Unsupported DAS type: " ++ request.dtype), reg)
  else
    let das_key :=
      match request.id with
      | some s => if s ≠ "" then s else freshId
      | none => freshId
    if (dict_lookup reg das_key).isSome then
      (RegisterResponse.ok das_key, reg)
    else
      (RegisterResponse.ok das_key, reg ++ [(das_key, mkMockDAS das_key request.options)])

/-- `RegistrationServiceServicer.Unregister` (server.py:358-368): aborts
with INVALID_ARGUMENT for an unknown id; otherwise pops the instance and
calls its `close()` hook.  The second component of the result lists the
instances whose close hook this call invokes, in order. -/
def Unregister (reg : Registry) (das_key : String) :
    Except GrpcError (Registry × List MockDAS) :=
  match dict_lookup reg das_key with
  | none => Except.error ⟨StatusCode.INVALID_ARGUMENT, "DAS not found: " ++ das_key⟩
  | some inst => Except.ok (dict_remove reg das_key, [inst])

theorem dict_lookup_remove (reg : Registry) (k : String) :
    dict_lookup (dict_remove reg k) k = none := by
  induction reg with
  | nil => rfl
  | cons p rest ih =>
    by_cases h : p.1 = k
    · simp only [dict_remove, if_pos h, ih]
    · simp only [dict_remove, if_neg h, dict_lookup, if_neg h, ih]

/-- C9: registering with a type discriminator other than `"mock"`
returns an in-band error response (no id is assigned) and leaves the
registry unchanged. -/
theorem claim_C9 (reg : Registry) (t : String) (opts : List (String × String))
    (oid : Option String) (fresh : String) (h : t ≠ "mock") :
    Register reg ⟨t, opts, oid⟩ fresh =
      (RegisterResponse.error ("Unsupported DAS type: " ++ t), reg) ∧
    (Register reg ⟨t, opts, oid⟩ fresh).2.length = reg.length := by
  constructor
  · simp [Register, h]
  · simp [Register, h]

theorem claim_C9_witness :
    "unsupported-kind" ≠ "mock" ∧
    (Register [] ⟨"unsupported-kind", [], none⟩ "u" =
       (RegisterResponse.error ("Unsupported DAS type: " ++ "unsupported-kind"), []) ∧
     (Register [] ⟨"unsupported-kind", [], none⟩ "u").2.length = List.length ([] : Registry)) :=
  ⟨by decide, claim_C9 [] "unsupported-kind" [] none "u" (by decide)⟩

/-- C8: registering with an explicit id already present returns that id
and leaves the registry unchanged (no new instance); two registrations
with no explicit id (with fresh generated ids) return two distinct ids
and store two distinct instances. -/
theorem claim_C8 (reg : Registry) (k : String) (inst : MockDAS)
    (opts opts2 : List (String × String)) (u1 u2 fresh : String)
    (hk : k ≠ "") (hmem : dict_lookup reg k = some inst)
    (hu1 : dict_lookup reg u1 = none)
    (hu2 : dict_lookup (reg ++ [(u1, mkMockDAS u1 opts)]) u2 = none)
    (hne : u1 ≠ u2) :
    Register reg ⟨"mock", opts, some k⟩ fresh = (RegisterResponse.ok k, reg) ∧
    Register reg ⟨"mock", opts, none⟩ u1 =
      (RegisterResponse.ok u1, reg ++ [(u1, mkMockDAS u1 opts)]) ∧
    Register (reg ++ [(u1, mkMockDAS u1 opts)]) ⟨"mock", opts2, none⟩ u2 =
      (RegisterResponse.ok u2,
        reg ++ [(u1, mkMockDAS u1 opts)] ++ [(u2, mkMockDAS u2 opts2)]) ∧
    mkMockDAS u1 opts ≠ mkMockDAS u2 opts2 := by
  refine ⟨?_, ?_, ?_, ?_⟩
  · simp [Register, hk, hmem]
  · simp [Register, hu1]
  · simp [Register, hu2]
  · intro h
    exact hne (congrArg MockDAS.das_id h)

theorem claim_C8_witness :
    ("a" : String) ≠ "" ∧
    dict_lookup [("a", mkMockDAS "a" [])] "a" = some (mkMockDAS "a" []) ∧
    dict_lookup [("a", mkMockDAS "a" [])] "u1" = none ∧
    dict_lookup ([("a", mkMockDAS "a" [])] ++ [("u1", mkMockDAS "u1" [])]) "u2" = none ∧
    ("u1" : String) ≠ "u2" ∧
    (Register [("a", mkMockDAS "a" [])] ⟨"mock", [], some "a"⟩ "f" =
       (RegisterResponse.ok "a", [("a", mkMockDAS "a" [])]) ∧
     Register [("a", mkMockDAS "a" [])] ⟨"mock", [], none⟩ "u1" =
       (RegisterResponse.ok "u1", [("a", mkMockDAS "a" [])] ++ [("u1", mkMockDAS "u1" [])]) ∧
     Register ([("a", mkMockDAS "a" [])] ++ [("u1", mkMockDAS "u1" [])]) ⟨"mock", [], none⟩ "u2" =
       (RegisterResponse.ok "u2",
         [("a", mkMockDAS "a" [])] ++ [("u1", mkMockDAS "u1" [])] ++ [("u2", mkMockDAS "u2" [])]) ∧
     mkMockDAS "u1" [] ≠ mkMockDAS "u2" []) :=
  ⟨by decide, by decide, by decide, by decide, by decide,
   claim_C8 [("a", mkMockDAS "a" [])] "a" (mkMockDAS "a" []) [] [] "u1" "u2" "f"
     (by decide) (by decide) (by decide) (by decide) (by decide)⟩

/-- C5 counterexample: unregistering an unknown id aborts with status
INVALID_ARGUMENT, which is not the NOT_FOUND status the claim names. -/
theorem claim_C5_cex :
    Unregister [] "x" =
      Except.error ⟨StatusCode.INVALID_ARGUMENT, "DAS not found: x"⟩ ∧
    StatusCode.INVALID_ARGUMENT ≠ StatusCode.NOT_FOUND :=
  ⟨rfl, by decide⟩

/-- C5 (amended): unregister of an unknown id fails with an
InvalidArgument-status error (message `DAS not found: id`); unregister
of a known id removes the instance and invokes its close hook exactly
once (on exactly that instance), after which instance resolution for
that id fails with NotFound and a later register with the same explicit
id creates a fresh instance. -/
theorem claim_C5 (reg : Registry) (k : String) (inst : MockDAS)
    (opts : List (String × String)) (fresh : String) :
    (dict_lookup reg k = none →
      Unregister reg k =
        Except.error ⟨StatusCode.INVALID_ARGUMENT, "DAS not found: " ++ k⟩) ∧
    (dict_lookup reg k = some inst →
      Unregister reg k = Except.ok (dict_remove reg k, [inst]) ∧
      dict_lookup (dict_remove reg k) k = none ∧
      get_das_or_error (dict_remove reg k) k =
        Except.error ⟨StatusCode.NOT_FOUND, "DAS not found: " ++ k⟩ ∧
      (k ≠ "" →
        Register (dict_remove reg k) ⟨"mock", opts, some k⟩ fresh =
          (RegisterResponse.ok k,
            dict_remove reg k ++ [(k, mkMockDAS k opts)]))) := by
  constructor
  · intro h
    simp [Unregister, h]
  · intro h
    refine ⟨by simp [Unregister, h], dict_lookup_remove reg k, ?_, ?_⟩
    · simp [get_das_or_error, dict_lookup_remove]
    · intro hk
      simp [Register, hk, dict_lookup_remove]

theorem claim_C5_witness :
    dict_lookup [("a", mkMockDAS "a" [])] "a" = some (mkMockDAS "a" []) ∧
    (Unregister [("a", mkMockDAS "a" [])] "a" =
       Except.ok (dict_remove [("a", mkMockDAS "a" [])] "a", [mkMockDAS "a" []]) ∧
     dict_lookup (dict_remove [("a", mkMockDAS "a" [])] "a") "a" = none ∧
     get_das_or_error (dict_remove [("a", mkMockDAS "a" [])] "a") "a" =
       Except.error ⟨StatusCode.NOT_FOUND, "DAS not found: " ++ "a"⟩ ∧
     (("a" : String) ≠ "" →
       Register (dict_remove [("a", mkMockDAS "a" [])] "a") ⟨"mock", [], some "a"⟩ "f" =
         (RegisterResponse.ok "a",
           dict_remove [("a", mkMockDAS "a" [])] "a" ++ [("a", mkMockDAS "a" [])]))) :=
  ⟨by decide,
   (claim_C5 [("a", mkMockDAS "a" [])] "a" (mkMockDAS "a" []) [] "f").2 (by decide)⟩

/-!
## Table executor

`MockTable.execute` (server.py:100-171) is a generator; we model the
list of `Rows` batches it emits.  The gRPC context is an optional
activity schedule `act : Option (Nat → Bool)`: `context.is_active()` is
called at most once per loop iteration, at the top, in iteration order
(iteration `i` is the `i`-th call), and once more — with the next poll
number — by the leftover flush check after the loop.  The loop guard
`if context and not context.is_active(): break` is modelled as
continuing while `ctx_active act i` holds, where `ctx_active` is
exactly `not context or context.is_active()` (also the flush guard).
The loop `for i in range(1, nrows + 1)` is given fuel `nrows`,
decreasing structurally while `i` counts up from 1.
-/

/-- `batch_size = 5` (server.py:115). -/
def batch_size : Nat := 5

/-- `requested_cols = query.columns if query.columns else ["id", "name"]`
(server.py:114). -/
def effCols : List String → List String
  | [] => ["id", "name"]
  | c :: cs => c :: cs

/-- `max_rows = query.limit if query.HasField("limit") else self.nrows`
(server.py:113). -/
def maxRows (query : Query) (nrows : Nat) : Nat :=
  match query.limit with
  | some l => l
  | none => nrows

/-- The row built for ordinal `i` (server.py:133-157): one column per
requested name; `id` gets the ordinal, `name` the mock caption, and any
other requested name a placeholder string. -/
def make_row (requested_cols : List String) (i : Nat) : Row :=
  ⟨requested_cols.map (fun col_name =>
    if col_name = "id" then
      ⟨"id", make_int_value i⟩
    else if col_name = "name" then
      ⟨"name", make_string_value ("Mock row #" ++ toString i)⟩
    else
      ⟨col_name, make_string_value ("Value for " ++ col_name ++ " @ row " ++ toString i)⟩)⟩

/-- `not context or context.is_active()` at poll number `j`. -/
def ctx_active (act : Option (Nat → Bool)) (j : Nat) : Bool :=
  match act with
  | none => true
  | some f => f j

/-- The `for` loop of `MockTable.execute` (server.py:119-162), from
iteration `i` with `fuel` iterations of the range left and accumulated
batch `cur`.  Returns the batches yielded by the loop, the pending
partial batch, the poll number the leftover check will use, and whether
the loop ended by observing an inactive context. -/
def execute_loop (act : Option (Nat → Bool)) (quals : List Qual) (cols : List String)
    (max_rows : Nat) : Nat → Nat → List Row →
    List (List Row) × List Row × Nat × Bool
  | 0, i, cur => ([], cur, i, false)
  | fuel + 1, i, cur =>
    if ctx_active act i then
      if max_rows < i then
        ([], cur, i + 1, false)
      else if row_matches_quals (i : Int) quals then
        let cur' := cur ++ [make_row cols i]
        if batch_size ≤ cur'.length then
          let r := execute_loop act quals cols max_rows fuel (i + 1) []
          (cur' :: r.1, r.2)
        else
          execute_loop act quals cols max_rows fuel (i + 1) cur'
      else
        execute_loop act quals cols max_rows fuel (i + 1) cur
    else
      ([], cur, i + 1, true)

/-- `MockTable.execute` (server.py:100-171): the batches the generator
emits, including the leftover flush
`if current_batch and (not context or context.is_active())`
(server.py:165-166). -/
def execute (act : Option (Nat → Bool)) (query : Query) (nrows : Nat) : List (List Row) :=
  (execute_loop act query.quals (effCols query.columns) (maxRows query nrows) nrows 1 []).1 ++
    (if (execute_loop act query.quals (effCols query.columns) (maxRows query nrows) nrows 1 []).2.1 ≠ [] then
      (if ctx_active act
          (execute_loop act query.quals (effCols query.columns) (maxRows query nrows) nrows 1 []).2.2.1 then
        [(execute_loop act query.quals (effCols query.columns) (maxRows query nrows) nrows 1 []).2.1]
      else [])
    else [])

/-- Whether the loop of an execution under schedule `f` ended because it
observed an inactive context. -/
def cancelled_run (f : Nat → Bool) (query : Query) (nrows : Nat) : Bool :=
  (execute_loop (some f) query.quals (effCols query.columns) (maxRows query nrows) nrows 1 []).2.2.2

/-- Reference batching: feed rows one at a time into a batch carried in
`cur`, emitting it whenever it reaches `batch_size`; returns the emitted
batches and the final pending remainder. -/
def chunksAux : List Row → List Row → List (List Row) × List Row
  | cur, [] => ([], cur)
  | cur, r :: rs =>
    let cur' := cur ++ [r]
    if batch_size ≤ cur'.length then
      let p := chunksAux [] rs
      (cur' :: p.1, p.2)
    else
      chunksAux cur' rs

/-- Reference batching of a whole row list: size-`batch_size` groups in
order, with the final smaller group kept when non-empty. -/
def chunks5 (rows : List Row) : List (List Row) :=
  (chunksAux [] rows).1 ++
    (if (chunksAux [] rows).2 = [] then [] else [(chunksAux [] rows).2])

/-- The rows the loop would accept from iteration `i` on: ordinals of
`range(i, i + fuel)` not beyond the cap, filtered by the qualifier
evaluator, built by `make_row`. -/
def matched_seg (quals : List Qual) (cols : List String) (max_rows fuel i : Nat) : List Row :=
  ((List.range' i (min fuel (max_rows + 1 - i))).filter
      (fun (j : Nat) => row_matches_quals (j : Int) quals)).map (make_row cols)

/-- The row sequence a never-cancelled execution accepts: ordinals
`1 .. min nrows max_rows`, filtered and built. -/
def natural_rows (query : Query) (nrows : Nat) : List Row :=
  matched_seg query.quals (effCols query.columns) (maxRows query nrows) nrows 1

theorem chunksAux_flatten (rs : List Row) : ∀ cur : List Row,
    (chunksAux cur rs).1.flatten ++ (chunksAux cur rs).2 = cur ++ rs := by
  induction rs with
  | nil => intro cur; simp [chunksAux]
  | cons r rs ih =>
    intro cur
    simp only [chunksAux]
    by_cases h : batch_size ≤ (cur ++ [r]).length
    · rw [if_pos h]
      simp only [List.flatten_cons, List.append_assoc, ih []]
      simp
    · rw [if_neg h, ih (cur ++ [r])]
      simp

theorem chunks5_flatten (rs : List Row) : (chunks5 rs).flatten = rs := by
  unfold chunks5
  by_cases h : (chunksAux [] rs).2 = []
  · rw [if_pos h]
    have := chunksAux_flatten rs []
    rw [h] at this
    simpa using this
  · rw [if_neg h]
    have := chunksAux_flatten rs []
    simpa [List.flatten_append] using this


theorem execute_loop_succ_active (act : Option (Nat → Bool)) (quals : List Qual)
    (cols : List String) (M fuel i : Nat) (cur : List Row)
    (ha : ctx_active act i = true) :
    execute_loop act quals cols M (fuel + 1) i cur =
      if M < i then ([], cur, i + 1, false)
      else if row_matches_quals (i : Int) quals then
        (if batch_size ≤ (cur ++ [make_row cols i]).length then
          ((cur ++ [make_row cols i]) :: (execute_loop act quals cols M fuel (i + 1) []).1,
            (execute_loop act quals cols M fuel (i + 1) []).2)
        else
          execute_loop act quals cols M fuel (i + 1) (cur ++ [make_row cols i]))
      else execute_loop act quals cols M fuel (i + 1) cur := by
  rw [execute_loop, if_pos ha]

theorem execute_loop_none (quals : List Qual) (cols : List String) (M : Nat) :
    ∀ fuel i cur,
      (execute_loop none quals cols M fuel i cur).1 =
        (chunksAux cur (matched_seg quals cols M fuel i)).1 ∧
      (execute_loop none quals cols M fuel i cur).2.1 =
        (chunksAux cur (matched_seg quals cols M fuel i)).2 := by
  intro fuel
  induction fuel with
  | zero =>
    intro i cur
    simp [execute_loop, matched_seg, chunksAux]
  | succ fuel ih =>
    intro i cur
    have ha : ctx_active (none : Option (Nat → Bool)) i = true := rfl
    rw [execute_loop_succ_active none quals cols M fuel i cur ha]
    by_cases hM : M < i
    · have hseg : matched_seg quals cols M (fuel + 1) i = [] := by
        unfold matched_seg
        have h0 : min (fuel + 1) (M + 1 - i) = 0 := by omega
        rw [h0]
        rfl
      rw [if_pos hM, hseg]
      exact ⟨rfl, rfl⟩
    · have hrange : List.range' i (min (fuel + 1) (M + 1 - i)) =
          i :: List.range' (i + 1) (min fuel (M + 1 - (i + 1))) := by
        have hmin : min (fuel + 1) (M + 1 - i) = min fuel (M + 1 - (i + 1)) + 1 := by
          omega
        rw [hmin, List.range'_succ]
      rw [if_neg hM]
      by_cases hm : row_matches_quals (i : Int) quals
      · have hseg : matched_seg quals cols M (fuel + 1) i =
            make_row cols i :: matched_seg quals cols M fuel (i + 1) := by
          unfold matched_seg
          rw [hrange]
          simp [hm]
        rw [if_pos hm, hseg]
        simp only [chunksAux]
        by_cases hlen : batch_size ≤ (cur ++ [make_row cols i]).length
        · rw [if_pos hlen, if_pos hlen]
          obtain ⟨h1, h2⟩ := ih (i + 1) []
          exact ⟨by rw [h1], by rw [h2]⟩
        · rw [if_neg hlen, if_neg hlen]
          exact ih (i + 1) (cur ++ [make_row cols i])
      · have hseg : matched_seg quals cols M (fuel + 1) i =
            matched_seg quals cols M fuel (i + 1) := by
          unfold matched_seg
          rw [hrange]
          simp [hm]
        rw [if_neg hm, hseg]
        exact ih (i + 1) cur

/-- A never-cancelled execution is exactly the reference batching of the
accepted row sequence: size-5 batches in order, final partial batch
flushed. -/
theorem execute_none_eq (query : Query) (nrows : Nat) :
    execute none query nrows = chunks5 (natural_rows query nrows) := by
  unfold execute chunks5 natural_rows
  obtain ⟨h1, h2⟩ :=
    execute_loop_none query.quals (effCols query.columns) (maxRows query nrows) nrows 1 []
  rw [h1, h2]
  by_cases h : (chunksAux [] (matched_seg query.quals (effCols query.columns)
      (maxRows query nrows) nrows 1)).2 = []
  · simp [h, ctx_active]
  · simp [h, ctx_active]

/-- A faithful environment assumption on the gRPC liveness signal: once
`is_active()` has returned false (the RPC was cancelled), later polls
keep returning false. -/
def CtxMonotone (f : Nat → Bool) : Prop :=
  ∀ m n : Nat, m ≤ n → f m = false → f n = false

theorem execute_loop_batch_sizes (act : Option (Nat → Bool)) (quals : List Qual)
    (cols : List String) (M : Nat) :
    ∀ fuel i cur, cur.length < batch_size →
      ∀ b ∈ (execute_loop act quals cols M fuel i cur).1, b.length = batch_size := by
  intro fuel
  induction fuel with
  | zero =>
    intro i cur hcur b hb
    simp [execute_loop] at hb
  | succ fuel ih =>
    intro i cur hcur b hb
    by_cases hact : ctx_active act i = true
    · rw [execute_loop_succ_active act quals cols M fuel i cur hact] at hb
      by_cases hM : M < i
      · rw [if_pos hM] at hb
        simp at hb
      · rw [if_neg hM] at hb
        by_cases hm : row_matches_quals (i : Int) quals
        · rw [if_pos hm] at hb
          by_cases hlen : batch_size ≤ (cur ++ [make_row cols i]).length
          · rw [if_pos hlen] at hb
            rcases List.mem_cons.mp hb with hb | hb
            · subst hb
              have : (cur ++ [make_row cols i]).length = cur.length + 1 := by simp
              omega
            · exact ih (i + 1) [] (by simp [batch_size]) b hb
          · rw [if_neg hlen] at hb
            exact ih (i + 1) (cur ++ [make_row cols i]) (by omega) b hb
        · rw [if_neg hm] at hb
          exact ih (i + 1) cur hcur b hb
    · rw [execute_loop, if_neg hact] at hb
      simp at hb

theorem execute_loop_cancel_poll (f : Nat → Bool) (quals : List Qual)
    (cols : List String) (M : Nat) (hf : CtxMonotone f) :
    ∀ fuel i cur,
      (execute_loop (some f) quals cols M fuel i cur).2.2.2 = true →
      f ((execute_loop (some f) quals cols M fuel i cur).2.2.1) = false := by
  intro fuel
  induction fuel with
  | zero =>
    intro i cur hc
    simp [execute_loop] at hc
  | succ fuel ih =>
    intro i cur hc
    by_cases hact : ctx_active (some f) i = true
    · rw [execute_loop_succ_active (some f) quals cols M fuel i cur hact] at hc ⊢
      by_cases hM : M < i
      · rw [if_pos hM] at hc
        simp at hc
      · rw [if_neg hM] at hc ⊢
        by_cases hm : row_matches_quals (i : Int) quals
        · rw [if_pos hm] at hc ⊢
          by_cases hlen : batch_size ≤ (cur ++ [make_row cols i]).length
          · rw [if_pos hlen] at hc ⊢
            exact ih (i + 1) [] hc
          · rw [if_neg hlen] at hc ⊢
            exact ih (i + 1) (cur ++ [make_row cols i]) hc
        · rw [if_neg hm] at hc ⊢
          exact ih (i + 1) cur hc
    · rw [execute_loop, if_neg hact] at hc ⊢
      have hfi : f i = false := by
        simpa [ctx_active] using hact
      exact hf i (i + 1) (by omega) hfi

theorem execute_loop_uncancelled_eq (f : Nat → Bool) (quals : List Qual)
    (cols : List String) (M : Nat) :
    ∀ fuel i cur,
      (execute_loop (some f) quals cols M fuel i cur).2.2.2 = false →
      execute_loop (some f) quals cols M fuel i cur =
        execute_loop none quals cols M fuel i cur := by
  intro fuel
  induction fuel with
  | zero =>
    intro i cur _
    rfl
  | succ fuel ih =>
    intro i cur hc
    by_cases hact : ctx_active (some f) i = true
    · rw [execute_loop_succ_active (some f) quals cols M fuel i cur hact] at hc ⊢
      rw [execute_loop_succ_active none quals cols M fuel i cur rfl]
      by_cases hM : M < i
      · simp only [if_pos hM] at hc ⊢
      · simp only [if_neg hM] at hc ⊢
        by_cases hm : row_matches_quals (i : Int) quals
        · simp only [if_pos hm] at hc ⊢
          by_cases hlen : batch_size ≤ (cur ++ [make_row cols i]).length
          · simp only [if_pos hlen] at hc ⊢
            rw [ih (i + 1) [] hc]
          · simp only [if_neg hlen] at hc ⊢
            exact ih (i + 1) (cur ++ [make_row cols i]) hc
        · simp only [if_neg hm] at hc ⊢
          exact ih (i + 1) cur hc
    · rw [execute_loop, if_neg hact] at hc
      simp at hc

theorem execute_loop_truncates (f : Nat → Bool) (quals : List Qual)
    (cols : List String) (M : Nat) :
    ∀ fuel i cur,
      (execute_loop (some f) quals cols M fuel i cur).1 <+:
        (execute_loop none quals cols M fuel i cur).1 := by
  intro fuel
  induction fuel with
  | zero =>
    intro i cur
    exact List.nil_prefix
  | succ fuel ih =>
    intro i cur
    by_cases hact : ctx_active (some f) i = true
    · rw [execute_loop_succ_active (some f) quals cols M fuel i cur hact]
      rw [execute_loop_succ_active none quals cols M fuel i cur rfl]
      by_cases hM : M < i
      · simp only [if_pos hM]
        exact List.nil_prefix
      · simp only [if_neg hM]
        by_cases hm : row_matches_quals (i : Int) quals
        · simp only [if_pos hm]
          by_cases hlen : batch_size ≤ (cur ++ [make_row cols i]).length
          · simp only [if_pos hlen]
            exact List.cons_prefix_cons.mpr ⟨rfl, ih (i + 1) []⟩
          · simp only [if_neg hlen]
            exact ih (i + 1) (cur ++ [make_row cols i])
        · simp only [if_neg hm]
          exact ih (i + 1) cur
    · rw [execute_loop, if_neg hact]
      exact List.nil_prefix

theorem append_prefix_append {l a b : List (List Row)} (h : a <+: b) :
    l ++ a <+: l ++ b := by
  obtain ⟨t, rfl⟩ := h
  exact ⟨t, by rw [List.append_assoc]⟩

/-- Observable events of one `ExecuteTable` streaming call: a batch
relayed to the client, or the generator's finalization (`finally`)
block running (server.py:168-171). -/
inductive Event where
  | emit (b : List Row)
  | cleanup
deriving DecidableEq

/-- The relay loop of `TablesServiceServicer.ExecuteTable`
(server.py:441-449): pull a batch from the generator, poll
`context.is_active()` (poll `j`), on inactive call `gen.close()` —
which runs the generator's `finally` block — and break, else yield the
batch; when the generator is exhausted its `finally` block runs at the
final pull. -/
def relay (g : Nat → Bool) : List (List Row) → Nat → List Event
  | [], _ => [Event.cleanup]
  | b :: rest, j =>
    if g j = true then Event.emit b :: relay g rest (j + 1)
    else [Event.cleanup]

/-- The batches an event trace delivered to the client. -/
def relay_emitted (evs : List Event) : List (List Row) :=
  evs.filterMap (fun e => match e with | Event.emit b => some b | Event.cleanup => none)

theorem relay_cleanup_once (g : Nat → Bool) :
    ∀ (bs : List (List Row)) (j : Nat), (relay g bs j).count Event.cleanup = 1 := by
  intro bs
  induction bs with
  | nil =>
    intro j
    rfl
  | cons b rest ih =>
    intro j
    by_cases hg : g j = true
    · rw [relay, if_pos hg]
      simp [List.count_cons, ih (j + 1)]
    · rw [relay, if_neg hg]
      rfl

theorem relay_emits_pulled (g : Nat → Bool) :
    ∀ (bs : List (List Row)) (j : Nat), relay_emitted (relay g bs j) <+: bs := by
  intro bs
  induction bs with
  | nil =>
    intro j
    rw [relay]
    simp [relay_emitted]
  | cons b rest ih =>
    intro j
    by_cases hg : g j = true
    · rw [relay, if_pos hg]
      simp only [relay_emitted, List.filterMap_cons]
      exact List.cons_prefix_cons.mpr ⟨rfl, ih (j + 1)⟩
    · rw [relay, if_neg hg]
      simp [relay_emitted]

/-- A cancelled execution consists of the loop's completed batches only:
the leftover flush re-polls the (monotone) signal, sees it inactive,
and drops the pending partial batch. -/
theorem execute_cancelled_eq_batches (f : Nat → Bool) (query : Query) (nrows : Nat)
    (hf : CtxMonotone f) (hc : cancelled_run f query nrows = true) :
    execute (some f) query nrows =
      (execute_loop (some f) query.quals (effCols query.columns)
        (maxRows query nrows) nrows 1 []).1 := by
  unfold cancelled_run at hc
  have hpoll := execute_loop_cancel_poll f query.quals (effCols query.columns)
    (maxRows query nrows) hf nrows 1 [] hc
  unfold execute
  simp [ctx_active, hpoll]

/-- C1: under a monotone cancellation signal, a cancelled execution
emits a prefix of the uncancelled stream (no further batches), every
batch it emits is a completed size-5 batch (the pending partial batch
is dropped), and the `ExecuteTable` relay trace contains the
finalization event exactly once for every consumer schedule — natural
exhaustion, early break, or forced close — while delivering a prefix of
the generator's batches. -/
theorem claim_C1 (query : Query) (nrows : Nat) (f g : Nat → Bool)
    (hf : CtxMonotone f) :
    execute (some f) query nrows <+: execute none query nrows ∧
    (cancelled_run f query nrows = true →
      ∀ b ∈ execute (some f) query nrows, b.length = batch_size) ∧
    (relay g (execute (some f) query nrows) 1).count Event.cleanup = 1 ∧
    relay_emitted (relay g (execute (some f) query nrows) 1) <+:
      execute (some f) query nrows := by
  refine ⟨?_, ?_, relay_cleanup_once g _ 1, relay_emits_pulled g _ 1⟩
  · by_cases hc : cancelled_run f query nrows = true
    · rw [execute_cancelled_eq_batches f query nrows hf hc]
      unfold execute
      exact (execute_loop_truncates f query.quals (effCols query.columns)
        (maxRows query nrows) nrows 1 []).trans (List.prefix_append _ _)
    · have huc := execute_loop_uncancelled_eq f query.quals (effCols query.columns)
        (maxRows query nrows) nrows 1 []
        (by
          unfold cancelled_run at hc
          simpa using hc)
      unfold execute
      rw [huc]
      apply append_prefix_append
      by_cases hp : (execute_loop none query.quals (effCols query.columns)
          (maxRows query nrows) nrows 1 []).2.1 = []
      · simp [hp]
      · simp only [hp, ne_eq, not_false_iff, if_true]
        by_cases hfp : f ((execute_loop none query.quals (effCols query.columns)
            (maxRows query nrows) nrows 1 []).2.2.1) = true
        · simp [ctx_active, hfp]
        · simp only [ctx_active, hfp, Bool.false_eq_true, if_false]
          exact List.nil_prefix
  · intro hc b hb
    rw [execute_cancelled_eq_batches f query nrows hf hc] at hb
    exact execute_loop_batch_sizes (some f) query.quals (effCols query.columns)
      (maxRows query nrows) nrows 1 [] (by simp [batch_size]) b hb

theorem claim_C1_witness :
    CtxMonotone (fun j => decide (j < 8)) ∧
    (execute (some (fun j => decide (j < 8))) ⟨none, [], []⟩ 12 <+:
        execute none ⟨none, [], []⟩ 12 ∧
      (cancelled_run (fun j => decide (j < 8)) ⟨none, [], []⟩ 12 = true →
        ∀ b ∈ execute (some (fun j => decide (j < 8))) ⟨none, [], []⟩ 12,
          b.length = batch_size) ∧
      (relay (fun _ => true) (execute (some (fun j => decide (j < 8))) ⟨none, [], []⟩ 12) 1).count
          Event.cleanup = 1 ∧
      relay_emitted
          (relay (fun _ => true) (execute (some (fun j => decide (j < 8))) ⟨none, [], []⟩ 12) 1) <+:
        execute (some (fun j => decide (j < 8))) ⟨none, [], []⟩ 12) :=
  have hm : CtxMonotone (fun j => decide (j < 8)) := by
    intro m n hmn h
    simp only [decide_eq_false_iff_not] at h ⊢
    omega
  ⟨hm, claim_C1 ⟨none, [], []⟩ 12 (fun j => decide (j < 8)) (fun _ => true) hm⟩

/-- C2: with limit `L ≤ N` and no cancellation, the emitted rows are
exactly the rows of ordinals `1..L` passing the qualifiers, in
ascending ordinal order, and at most `L` rows are emitted. -/
theorem claim_C2 (N L : Nat) (quals : List Qual) (cols : List String) (h : L ≤ N) :
    (execute none ⟨some L, cols, quals⟩ N).flatten =
      ((List.range' 1 L).filter (fun (j : Nat) => row_matches_quals (j : Int) quals)).map
        (make_row (effCols cols)) ∧
    (execute none ⟨some L, cols, quals⟩ N).flatten.length ≤ L := by
  have hnat : natural_rows ⟨some L, cols, quals⟩ N =
      ((List.range' 1 L).filter (fun (j : Nat) => row_matches_quals (j : Int) quals)).map
        (make_row (effCols cols)) := by
    show matched_seg quals (effCols cols) L N 1 = _
    unfold matched_seg
    have hmin : min N (L + 1 - 1) = L := by omega
    rw [hmin]
  have hflat : (execute none ⟨some L, cols, quals⟩ N).flatten =
      natural_rows ⟨some L, cols, quals⟩ N := by
    rw [execute_none_eq]
    exact chunks5_flatten _
  constructor
  · rw [hflat, hnat]
  · rw [hflat, hnat]
    have h1 : (((List.range' 1 L).filter
          (fun (j : Nat) => row_matches_quals (j : Int) quals)).map
            (make_row (effCols cols))).length =
        ((List.range' 1 L).filter
          (fun (j : Nat) => row_matches_quals (j : Int) quals)).length :=
      List.length_map _ _
    have h2 := List.length_filter_le
      (fun (j : Nat) => row_matches_quals (j : Int) quals) (List.range' 1 L)
    have h3 : (List.range' 1 L).length = L := by simp
    omega

theorem claim_C2_witness :
    3 ≤ 7 ∧
    ((execute none ⟨some 3, [], []⟩ 7).flatten =
        ((List.range' 1 3).filter (fun (j : Nat) => row_matches_quals (j : Int) [])).map
          (make_row (effCols [])) ∧
      (execute none ⟨some 3, [], []⟩ 7).flatten.length ≤ 3) :=
  ⟨by decide, claim_C2 7 3 [] [] (by decide)⟩

/-- C4: a never-cancelled execution equals the reference batching of its
accepted rows — size-5 batches with the final pending partial batch
emitted as the last element when non-empty — while a cancelled
execution (monotone signal) consists of completed size-5 batches only,
the pending partial batch being discarded. -/
theorem claim_C4 (query : Query) (nrows : Nat) (f : Nat → Bool)
    (hf : CtxMonotone f) :
    execute none query nrows = chunks5 (natural_rows query nrows) ∧
    (cancelled_run f query nrows = true →
      ∀ b ∈ execute (some f) query nrows, b.length = batch_size) := by
  refine ⟨execute_none_eq query nrows, ?_⟩
  intro hc b hb
  rw [execute_cancelled_eq_batches f query nrows hf hc] at hb
  exact execute_loop_batch_sizes (some f) query.quals (effCols query.columns)
    (maxRows query nrows) nrows 1 [] (by simp [batch_size]) b hb

theorem claim_C4_witness :
    CtxMonotone (fun j => decide (j < 8)) ∧
    cancelled_run (fun j => decide (j < 8)) ⟨none, [], []⟩ 12 = true ∧
    (execute none ⟨none, [], []⟩ 12 = chunks5 (natural_rows ⟨none, [], []⟩ 12) ∧
      (cancelled_run (fun j => decide (j < 8)) ⟨none, [], []⟩ 12 = true →
        ∀ b ∈ execute (some (fun j => decide (j < 8))) ⟨none, [], []⟩ 12,
          b.length = batch_size)) :=
  have hm : CtxMonotone (fun j => decide (j < 8)) := by
    intro m n hmn h
    simp only [decide_eq_false_iff_not] at h ⊢
    omega
  ⟨hm, by decide, claim_C4 ⟨none, [], []⟩ 12 (fun j => decide (j < 8)) hm⟩

theorem make_row_names (cols : List String) (i : Nat) :
    (make_row cols i).columns.map Column.name = cols := by
  unfold make_row
  rw [List.map_map]
  have h : (Column.name ∘ (fun col_name =>
      if col_name = "id" then (⟨"id", make_int_value i⟩ : Column)
      else if col_name = "name" then
        ⟨"name", make_string_value ("Mock row #" ++ toString i)⟩
      else
        ⟨col_name, make_string_value
          ("Value for " ++ col_name ++ " @ row " ++ toString i)⟩)) = id := by
    funext c
    by_cases h1 : c = "id"
    · simp [h1]
    · by_cases h2 : c = "name" <;> simp [h1, h2]
  rw [h, List.map_id]

theorem execute_loop_row_mem (act : Option (Nat → Bool)) (quals : List Qual)
    (cols : List String) (M : Nat) :
    ∀ fuel i cur row,
      (row ∈ (execute_loop act quals cols M fuel i cur).1.flatten ∨
        row ∈ (execute_loop act quals cols M fuel i cur).2.1) →
      row ∈ cur ∨ ∃ j, row = make_row cols j := by
  intro fuel
  induction fuel with
  | zero =>
    intro i cur row h
    rcases h with h | h
    · simp [execute_loop] at h
    · exact Or.inl (by simpa [execute_loop] using h)
  | succ fuel ih =>
    intro i cur row h
    by_cases hact : ctx_active act i = true
    · rw [execute_loop_succ_active act quals cols M fuel i cur hact] at h
      by_cases hM : M < i
      · rw [if_pos hM] at h
        rcases h with h | h
        · simp at h
        · exact Or.inl (by simpa using h)
      · rw [if_neg hM] at h
        by_cases hm : row_matches_quals (i : Int) quals
        · rw [if_pos hm] at h
          by_cases hlen : batch_size ≤ (cur ++ [make_row cols i]).length
          · rw [if_pos hlen] at h
            rcases h with h | h
            · rw [List.flatten_cons] at h
              rcases List.mem_append.mp h with h | h
              · rcases List.mem_append.mp h with h | h
                · exact Or.inl h
                · exact Or.inr ⟨i, by simpa using h⟩
              · rcases ih (i + 1) [] row (Or.inl h) with h' | h'
                · simp at h'
                · exact Or.inr h'
            · rcases ih (i + 1) [] row (Or.inr h) with h' | h'
              · simp at h'
              · exact Or.inr h'
          · rw [if_neg hlen] at h
            rcases ih (i + 1) (cur ++ [make_row cols i]) row h with h' | h'
            · rcases List.mem_append.mp h' with h'' | h''
              · exact Or.inl h''
              · exact Or.inr ⟨i, by simpa using h''⟩
            · exact Or.inr h'
        · rw [if_neg hm] at h
          exact ih (i + 1) cur row h
    · rw [execute_loop, if_neg hact] at h
      rcases h with h | h
      · simp at h
      · exact Or.inl (by simpa using h)

/-- Every row an execution emits was built by `make_row` over the
effective requested columns. -/
theorem execute_row_shape (act : Option (Nat → Bool)) (query : Query) (nrows : Nat)
    (row : Row) (h : row ∈ (execute act query nrows).flatten) :
    ∃ j, row = make_row (effCols query.columns) j := by
  unfold execute at h
  rw [List.flatten_append] at h
  rcases List.mem_append.mp h with h | h
  · rcases execute_loop_row_mem act query.quals (effCols query.columns)
      (maxRows query nrows) nrows 1 [] row (Or.inl h) with h' | h'
    · simp at h'
    · exact h'
  · by_cases hp : (execute_loop act query.quals (effCols query.columns)
        (maxRows query nrows) nrows 1 []).2.1 = []
    · simp [hp] at h
    · simp only [hp, ne_eq, not_false_iff, if_true] at h
      by_cases hact : ctx_active act ((execute_loop act query.quals (effCols query.columns)
          (maxRows query nrows) nrows 1 []).2.2.1) = true
      · rw [if_pos hact] at h
        simp only [List.flatten_cons, List.flatten_nil, List.append_nil] at h
        rcases execute_loop_row_mem act query.quals (effCols query.columns)
            (maxRows query nrows) nrows 1 [] row (Or.inr h) with h' | h'
        · simp at h'
        · exact h'
      · rw [if_neg hact] at h
        simp at h

/-- C6: with a non-empty requested column list `R`, every emitted row
has exactly the columns of `R`, in order; a requested name unknown to
the table yields a column carrying the defined placeholder string
rather than an error. -/
theorem claim_C6 (act : Option (Nat → Bool)) (query : Query) (nrows : Nat) (row : Row)
    (h1 : query.columns ≠ []) (h2 : row ∈ (execute act query nrows).flatten) :
    row.columns.map Column.name = query.columns ∧
    (∀ c ∈ query.columns, c ≠ "id" → c ≠ "name" →
      ∃ j : Nat, (⟨c, make_string_value
        ("Value for " ++ c ++ " @ row " ++ toString j)⟩ : Column) ∈ row.columns) := by
  obtain ⟨j, rfl⟩ := execute_row_shape act query nrows row h2
  have hcols : effCols query.columns = query.columns := by
    cases hq : query.columns with
    | nil => exact absurd hq h1
    | cons c cs => rw [hq] at *; rfl
  rw [hcols]
  constructor
  · exact make_row_names query.columns j
  · intro c hc hcid hcname
    refine ⟨j, ?_⟩
    unfold make_row
    exact List.mem_map.mpr ⟨c, hc, by simp [hcid, hcname]⟩

theorem claim_C6_witness :
    (["id", "foo"] : List String) ≠ [] ∧
    make_row ["id", "foo"] 1 ∈ (execute none ⟨none, ["id", "foo"], []⟩ 1).flatten ∧
    ((make_row ["id", "foo"] 1).columns.map Column.name = ["id", "foo"] ∧
      (∀ c ∈ (["id", "foo"] : List String), c ≠ "id" → c ≠ "name" →
        ∃ j : Nat, (⟨c, make_string_value
          ("Value for " ++ c ++ " @ row " ++ toString j)⟩ : Column) ∈
            (make_row ["id", "foo"] 1).columns)) :=
  ⟨by decide, by decide,
   claim_C6 none ⟨none, ["id", "foo"], []⟩ 1 (make_row ["id", "foo"] 1)
     (by decide) (by decide)⟩

/-- C10: with an empty requested column list, every emitted row has
exactly the default columns `id` and `name`, in that order. -/
theorem claim_C10 (act : Option (Nat → Bool)) (query : Query) (nrows : Nat) (row : Row)
    (h1 : query.columns = []) (h2 : row ∈ (execute act query nrows).flatten) :
    row.columns.map Column.name = ["id", "name"] := by
  obtain ⟨j, rfl⟩ := execute_row_shape act query nrows row h2
  rw [h1]
  exact make_row_names ["id", "name"] j

theorem claim_C10_witness :
    (⟨none, [], []⟩ : Query).columns = [] ∧
    make_row ["id", "name"] 1 ∈ (execute none ⟨none, [], []⟩ 1).flatten ∧
    (make_row ["id", "name"] 1).columns.map Column.name = ["id", "name"] :=
  ⟨by decide, by decide,
   claim_C10 none ⟨none, [], []⟩ 1 (make_row ["id", "name"] 1) (by decide) (by decide)⟩
